import Mathlib

/-!
Verification of the grapevine.haus client (`src/grapevine.js`) against its
natural-language specification.

The JavaScript class is shallowly embedded: JS values that matter to control
flow become the inductive `JVal`; the `event_listeners` `Map` becomes an
association list from keys to queues of waiter identifiers; the socket
`'json'` handler becomes the pure function `deliver`, which reports which
waiters were settled (and how), the resulting map, and any exception the
handler threw; methods that only send become functions returning the list of
messages sent.  Machine-level concerns (real promises, real sockets, UUID
generation) are abstracted: a waiter is its identifier, a fresh correlation
token is a parameter.
-/

namespace Grapevine

/-- The JavaScript values relevant to this client's control flow. -/
inductive JVal where
  | str (s : String)
  | num (n : Int)
  | jsBool (b : Bool)
  | undef
  | nul
  deriving DecidableEq, Repr

/-- JavaScript truthiness test (`!v` is true exactly when `v` is falsy):
the empty string, `0`, `false`, `undefined` and `null` are falsy. -/
def JVal.falsy : JVal → Bool
  | .str s => s.isEmpty
  | .num n => n == 0
  | .jsBool b => !b
  | .undef => true
  | .nul => true

/-- An inbound wire envelope as consumed by the socket `'json'` handler
(`dobj` in the source).  `status = none` models an absent `status` field
(`dobj.status === undefined`). -/
structure Envelope where
  event : JVal
  status : Option String := none
  error : JVal := JVal.undef
  payload : JVal := JVal.undef
  deriving DecidableEq, Repr

/-- A pending waiter is identified by a number; its `resolve`/`reject`
continuations are represented by recording how it was settled. -/
abbrev WaiterId := Nat

/-- The `event_listeners` `Map`: insertion-ordered key/queue pairs. -/
abbrev Listeners := List (JVal × List WaiterId)

/-- `Map.prototype.get`: the queue stored at `k`, or `none` (JS `undefined`)
when the key is absent. -/
def mapGet (m : Listeners) (k : JVal) : Option (List WaiterId) :=
  (m.find? (fun p => p.1 == k)).map (fun p => p.2)

/-- `Map.prototype.set`: overwrite in place if the key exists, else append. -/
def mapSet (m : Listeners) (k : JVal) (v : List WaiterId) : Listeners :=
  if m.any (fun p => p.1 == k) then
    m.map (fun p => if p.1 == k then (k, v) else p)
  else m ++ [(k, v)]

/-- `wait(event)`: push a fresh waiter at the tail of the queue for `event`
(the source does `get(event) || []`, `push`, `set`). -/
def wait (m : Listeners) (event : JVal) (w : WaiterId) : Listeners :=
  mapSet m event (((mapGet m event).getD []) ++ [w])

/-- Exceptions the `'json'` handler can throw. -/
inductive JsError where
  | typeError
  | referenceError
  deriving DecidableEq, Repr

/-- How a waiter was settled by the handler. -/
inductive Settlement where
  | resolved (env : Envelope)
  | rejected (err : JVal)
  deriving DecidableEq, Repr

/-- The settlement the loop body applies to one waiter: with a `status`
field, resolve with the envelope when `status == 'success'`, else reject
with `envelope.error`; with no `status` field, resolve with the envelope. -/
def settleOne (dobj : Envelope) : Settlement :=
  match dobj.status with
  | some s => if s == "success" then .resolved dobj else .rejected dobj.error
  | none => .resolved dobj

/-- Everything observable about one run of the `'json'` handler. -/
structure DeliverResult where
  settlements : List (WaiterId × Settlement)
  listeners : Listeners
  thrown : Option JsError
  deriving DecidableEq, Repr

/-- The socket `'json'` handler (`grapevine.js` lines 36-48), line by line:
`if(!dobj.event) return;` — falsy event: nothing happens;
`let events = this.event_listeners.get(dobj.event);` — when the key is
absent this yields `undefined` and the following `for...of` throws a
`TypeError`; otherwise the loop settles every waiter in the queue, in queue
order, and the final `event_listeners.delete(dobj.event)` (note: missing
`this.`, an unresolved identifier) throws a `ReferenceError`, so the map is
never mutated on any path. -/
def deliver (m : Listeners) (dobj : Envelope) : DeliverResult :=
  if dobj.event.falsy then ⟨[], m, none⟩
  else
    match mapGet m dobj.event with
    | none => ⟨[], m, some .typeError⟩
    | some events => ⟨events.map (fun w => (w, settleOne dobj)), m, some .referenceError⟩

/-! ### Claims about the delivery handler (C1, C2, C3, C10) -/

/-- C1 counterexample: with two waiters (ids 0 and 1, enqueued in that
order) queued for event `"e"`, delivering a `status: "success"` envelope
settles the *younger* waiter 1 as well, and the oldest waiter is not removed
from the queue (the map is unchanged) — so the claim that only the oldest
waiter is consumed and every younger waiter remains unsettled is false. -/
theorem deliver_success_settles_younger_waiter :
    (1, Settlement.resolved ⟨JVal.str "e", some "success", JVal.undef, JVal.undef⟩) ∈
      (deliver [(JVal.str "e", [0, 1])]
        ⟨JVal.str "e", some "success", JVal.undef, JVal.undef⟩).settlements ∧
    (deliver [(JVal.str "e", [0, 1])]
        ⟨JVal.str "e", some "success", JVal.undef, JVal.undef⟩).listeners =
      [(JVal.str "e", [0, 1])] := by
  constructor <;> decide

/-- C1 (amended): for a non-empty event name with a queued waiter list `q`,
delivering a status-bearing envelope settles *every* waiter in `q`, in queue
order — each resolved with the envelope when `status` equals `"success"`,
otherwise each rejected with `envelope.error` — no waiter is removed from
the queue (the handler's final queue-delete step throws a `ReferenceError`,
leaving the correlation map unchanged). -/
theorem deliver_status_settles_all (m : Listeners) (q : List WaiterId)
    (dobj : Envelope) (s : String)
    (hfalsy : dobj.event.falsy = false)
    (hq : mapGet m dobj.event = some q)
    (hs : dobj.status = some s) :
    (deliver m dobj).settlements =
      q.map (fun w =>
        (w, if s == "success" then Settlement.resolved dobj
            else Settlement.rejected dobj.error)) ∧
    (deliver m dobj).listeners = m ∧
    (deliver m dobj).thrown = some JsError.referenceError := by
  simp [deliver, hfalsy, hq, settleOne, hs]

/-- C1 witness: the amended statement evaluated with two waiters queued for
`"tells/send"` and a `status: "error"` envelope. -/
theorem deliver_status_settles_all_witness :
    (JVal.falsy (JVal.str "tells/send") = false ∧
      mapGet [(JVal.str "tells/send", [4, 7])] (JVal.str "tells/send") = some [4, 7]) ∧
    ((deliver [(JVal.str "tells/send", [4, 7])]
        ⟨JVal.str "tells/send", some "error", JVal.str "boom", JVal.undef⟩).settlements =
      [(4, Settlement.rejected (JVal.str "boom")),
       (7, Settlement.rejected (JVal.str "boom"))] ∧
    (deliver [(JVal.str "tells/send", [4, 7])]
        ⟨JVal.str "tells/send", some "error", JVal.str "boom", JVal.undef⟩).listeners =
      [(JVal.str "tells/send", [4, 7])] ∧
    (deliver [(JVal.str "tells/send", [4, 7])]
        ⟨JVal.str "tells/send", some "error", JVal.str "boom", JVal.undef⟩).thrown =
      some JsError.referenceError) := by
  refine ⟨⟨by decide, by decide⟩, ?_⟩
  have h := deliver_status_settles_all [(JVal.str "tells/send", [4, 7])] [4, 7]
    ⟨JVal.str "tells/send", some "error", JVal.str "boom", JVal.undef⟩ "error"
    (by decide) (by decide) rfl
  simpa using h

/-- C2 counterexample: the empty string is a possible event name (`wait("")`
builds a queue for it), yet delivering an envelope whose `event` is `""`
hits the handler's `if(!dobj.event) return;` guard, so with two waiters
queued for `""` *nothing* is settled — the claim that every queued waiter
is resolved fails for this event name. -/
theorem deliver_broadcast_empty_event_resolves_nobody :
    mapGet [(JVal.str "", [0, 1])] (JVal.str "") = some [0, 1] ∧
    (0, Settlement.resolved ⟨JVal.str "", none, JVal.undef, JVal.undef⟩) ∉
      (deliver [(JVal.str "", [0, 1])]
        ⟨JVal.str "", none, JVal.undef, JVal.undef⟩).settlements ∧
    (deliver [(JVal.str "", [0, 1])]
        ⟨JVal.str "", none, JVal.undef, JVal.undef⟩).settlements = [] := by
  refine ⟨by decide, by decide, by decide⟩

/-- C2 (amended): for every *truthy* (non-empty) event name with a non-empty
queue of waiters, delivering an envelope for that event with no `status`
field resolves every currently queued waiter, in queue order, with that same
envelope, and afterwards the queue for that event is unchanged and still
non-empty: the waiters are not dequeued. -/
theorem deliver_broadcast_resolves_all (m : Listeners) (q : List WaiterId)
    (dobj : Envelope)
    (hfalsy : dobj.event.falsy = false)
    (hq : mapGet m dobj.event = some q)
    (hne : q ≠ [])
    (hs : dobj.status = none) :
    (deliver m dobj).settlements = q.map (fun w => (w, Settlement.resolved dobj)) ∧
    mapGet (deliver m dobj).listeners dobj.event = some q ∧ q ≠ [] := by
  refine ⟨?_, ?_, hne⟩ <;> simp [deliver, hfalsy, hq, settleOne, hs]

/-- C2 witness: the amended statement evaluated with two waiters queued for
`"players/status"` and a broadcast envelope (no `status` field). -/
theorem deliver_broadcast_resolves_all_witness :
    (JVal.falsy (JVal.str "players/status") = false ∧
      mapGet [(JVal.str "players/status", [0, 1])] (JVal.str "players/status") =
        some [0, 1] ∧ ([0, 1] : List WaiterId) ≠ []) ∧
    ((deliver [(JVal.str "players/status", [0, 1])]
        ⟨JVal.str "players/status", none, JVal.undef, JVal.undef⟩).settlements =
      [(0, Settlement.resolved ⟨JVal.str "players/status", none, JVal.undef, JVal.undef⟩),
       (1, Settlement.resolved ⟨JVal.str "players/status", none, JVal.undef, JVal.undef⟩)] ∧
    mapGet (deliver [(JVal.str "players/status", [0, 1])]
        ⟨JVal.str "players/status", none, JVal.undef, JVal.undef⟩).listeners
      (JVal.str "players/status") = some [0, 1]) := by
  refine ⟨⟨by decide, by decide, by decide⟩, ?_⟩
  have h := deliver_broadcast_resolves_all [(JVal.str "players/status", [0, 1])] [0, 1]
    ⟨JVal.str "players/status", none, JVal.undef, JVal.undef⟩
    (by decide) (by decide) (by decide) rfl
  exact ⟨by simpa using h.1, h.2.1⟩

/-- C3: delivering an envelope for a truthy event name that has no queue is
*not* a harmless no-op: `events` is `undefined` and the `for...of` loop
throws a `TypeError`.  No waiter is settled and the map is unchanged, but an
error is raised, contradicting the documented drop-silently behavior. -/
theorem deliver_no_queue_throws :
    deliver [] ⟨JVal.str "players/status", none, JVal.undef, JVal.undef⟩ =
      ⟨[], [], some JsError.typeError⟩ ∧
    deliver [(JVal.str "other", [0])]
        ⟨JVal.str "players/status", none, JVal.undef, JVal.undef⟩ =
      ⟨[], [(JVal.str "other", [0])], some JsError.typeError⟩ := by
  constructor <;> decide

/-- C10: for every inbound object whose `event` field is falsy (absent,
empty string, `0`, `null`, `false`), the handler returns immediately: no
waiter is settled, nothing is thrown, and `event_listeners` is unchanged. -/
theorem deliver_falsy_event_noop (m : Listeners) (dobj : Envelope)
    (h : dobj.event.falsy = true) :
    deliver m dobj = ⟨[], m, none⟩ := by
  simp [deliver, h]

/-- C10 witness: a broadcast with an absent (`undefined`) event field is a
no-op even with waiters queued. -/
theorem deliver_falsy_event_noop_witness :
    JVal.falsy JVal.undef = true ∧
    deliver [(JVal.str "e", [0])] ⟨JVal.undef, none, JVal.undef, JVal.undef⟩ =
      ⟨[], [(JVal.str "e", [0])], none⟩ :=
  ⟨by decide,
    deliver_falsy_event_noop [(JVal.str "e", [0])]
      ⟨JVal.undef, none, JVal.undef, JVal.undef⟩ (by decide)⟩

/-! ### Player registry (`add_player` / `remove_player`) -/

/-- Outbound effects a method may perform on the socket. -/
inductive Action where
  | connectSocket
  | installJsonHandler
  | installHeartbeatHandler
  | send (event : String)
  | awaitEvent (event : String)
  | emit (name : String)
  deriving DecidableEq, Repr

/-- The condition `!this.players.find(el => el == name)`: true when `find`
returns `undefined` (no match) *or* when the found element is itself falsy —
for strings, the empty string. -/
def lookupFalsy (players : List String) (name : String) : Bool :=
  match players.find? (fun el => el == name) with
  | none => true
  | some el => el.isEmpty

/-- `add_player(name, online)` (`grapevine.js` lines 140-151): when the
truthiness test on `find` passes, push the name, optionally send a
`players/sign-in` event, and return true; otherwise return false with no
mutation.  Result: (returned Bool, new player list, sent messages). -/
def add_player (players : List String) (name : String) (online : Bool) :
    Bool × List String × List Action :=
  if lookupFalsy players name then
    (true, players ++ [name], if online then [Action.send "players/sign-in"] else [])
  else (false, players, [])

/-- `Array.prototype.findIndex` with `-1` modeled as `none`. -/
def find_index (p : String → Bool) : List String → Option Nat
  | [] => none
  | x :: xs => if p x then some 0 else (find_index p xs).map (· + 1)

/-- `remove_player(name, online)` (`grapevine.js` lines 157-168): find the
first index of `name`; if found, `splice(i, 1)`, optionally send a
`players/sign-out` event, and return true; otherwise return false. -/
def remove_player (players : List String) (name : String) (online : Bool) :
    Bool × List String × List Action :=
  match find_index (fun el => el == name) players with
  | some i =>
      (true, players.eraseIdx i, if online then [Action.send "players/sign-out"] else [])
  | none => (false, players, [])

/-- A sequence of registry calls, for stating the player-list invariant. -/
inductive PlayerOp where
  | add (name : String) (online : Bool)
  | remove (name : String) (online : Bool)
  deriving DecidableEq, Repr

/-- The name an operation carries. -/
def PlayerOp.name : PlayerOp → String
  | .add n _ => n
  | .remove n _ => n

/-- Apply one registry operation to the player list. -/
def applyOp (players : List String) : PlayerOp → List String
  | .add n o => (add_player players n o).2.1
  | .remove n o => (remove_player players n o).2.1

/-- Apply a sequence of registry operations, left to right. -/
def applyOps (players : List String) (ops : List PlayerOp) : List String :=
  ops.foldl applyOp players

theorem lookupFalsy_of_not_mem {players : List String} {name : String}
    (h : name ∉ players) : lookupFalsy players name = true := by
  unfold lookupFalsy
  cases hf : players.find? (fun el => el == name) with
  | none => rfl
  | some el =>
      have hel := List.find?_some hf
      have hmem : el ∈ players := List.mem_of_find?_eq_some hf
      exact absurd (eq_of_beq hel ▸ hmem) h

theorem lookupFalsy_eq_false {players : List String} {name : String}
    (hne : name ≠ "") (h : name ∈ players) : lookupFalsy players name = false := by
  unfold lookupFalsy
  cases hf : players.find? (fun el => el == name) with
  | none =>
      rw [List.find?_eq_none] at hf
      have := hf name h
      simp at this
  | some el =>
      have hb := List.find?_some hf
      have hel : el = name := eq_of_beq hb
      subst hel
      rw [Bool.eq_false_iff]
      simpa [String.isEmpty_iff] using hne

theorem add_player_of_not_mem {players : List String} {name : String}
    (online : Bool) (h : name ∉ players) :
    add_player players name online =
      (true, players ++ [name],
        if online then [Action.send "players/sign-in"] else []) := by
  simp [add_player, lookupFalsy_of_not_mem h]

theorem add_player_of_mem {players : List String} {name : String}
    (online : Bool) (hne : name ≠ "") (h : name ∈ players) :
    add_player players name online = (false, players, []) := by
  simp [add_player, lookupFalsy_eq_false hne h]

theorem find_index_eq_none {p : String → Bool} {l : List String}
    (h : ∀ x ∈ l, ¬ p x) : find_index p l = none := by
  induction l with
  | nil => rfl
  | cons x xs ih =>
      have hx : ¬ p x := h x (by simp)
      simp [find_index, hx, ih (fun y hy => h y (by simp [hy]))]

theorem remove_player_of_not_mem {players : List String} {name : String}
    (online : Bool) (h : name ∉ players) :
    remove_player players name online = (false, players, []) := by
  have : find_index (fun el => el == name) players = none :=
    find_index_eq_none (fun x hx hbeq => h (eq_of_beq hbeq ▸ hx))
  simp [remove_player, this]

theorem remove_player_of_mem {players : List String} {name : String}
    (online : Bool) (h : name ∈ players) :
    (remove_player players name online).1 = true ∧
    ∃ l1 l2, players = l1 ++ name :: l2 ∧ name ∉ l1 ∧
      (remove_player players name online).2.1 = l1 ++ l2 := by
  induction players with
  | nil => cases h
  | cons x xs ih =>
      by_cases hx : x = name
      · subst hx
        refine ⟨by simp [remove_player, find_index], [], xs, by simp, by simp, ?_⟩
        simp [remove_player, find_index, List.eraseIdx]
      · have hmem : name ∈ xs := by
          cases h with
          | head => exact absurd rfl hx
          | tail _ h => exact h
        obtain ⟨h1, l1, l2, hsplit, hnot, h2⟩ := ih hmem
        have hxb : (x == name) = false := by simp [hx]
        have hfi : ∃ i, find_index (fun el => el == name) xs = some i := by
          unfold remove_player at h1
          cases hf : find_index (fun el => el == name) xs with
          | none => rw [hf] at h1; simp at h1
          | some i => exact ⟨i, rfl⟩
        obtain ⟨i, hi⟩ := hfi
        refine ⟨by simp [remove_player, find_index, hxb, hi], x :: l1, l2,
          by simp [hsplit], by simp [hnot, Ne.symm hx], ?_⟩
        unfold remove_player at h2 ⊢
        rw [hi] at h2
        simp only [find_index, hxb, Bool.false_eq_true, if_false, hi,
          Option.map_some]
        simpa [List.eraseIdx] using h2

/-- C5 counterexample: the empty-string name `""` is already present in the
list `[""]`, yet `add_player` returns `true` and appends a duplicate — the
truthiness test `!this.players.find(...)` treats a found falsy element like
a missing one — contradicting "returns false with no mutation when name is
already present". -/
theorem add_player_duplicates_empty_name :
    ("" ∈ ([""] : List String)) ∧
    add_player [""] "" false = (true, ["", ""], []) := by
  constructor <;> decide

/-- C5 (amended): `add_player` appends an absent name and returns true (the
name then occurs exactly once if it was absent); for a *non-empty* name that
is already present it returns false with no mutation (for an already-present
empty-string name it instead appends a duplicate, see the counterexample);
`remove_player` removes the first occurrence of a present name, preserving
the relative order of the remaining entries, and returns true; for an absent
name it returns false with no mutation. -/
theorem add_remove_player_spec (players : List String) (name : String) (online : Bool) :
    (name ∉ players →
      (add_player players name online).1 = true ∧
      (add_player players name online).2.1 = players ++ [name] ∧
      ((add_player players name online).2.1).count name = 1) ∧
    (name ≠ "" → name ∈ players →
      (add_player players name online).1 = false ∧
      (add_player players name online).2.1 = players) ∧
    (name ∈ players →
      (remove_player players name online).1 = true ∧
      ∃ l1 l2, players = l1 ++ name :: l2 ∧ name ∉ l1 ∧
        (remove_player players name online).2.1 = l1 ++ l2) ∧
    (name ∉ players →
      remove_player players name online = (false, players, [])) := by
  refine ⟨fun h => ?_, fun hne h => ?_, remove_player_of_mem online,
    remove_player_of_not_mem online⟩
  · rw [add_player_of_not_mem online h]
    exact ⟨rfl, rfl, by simp [List.count_eq_zero_of_not_mem h]⟩
  · rw [add_player_of_mem online hne h]
    exact ⟨rfl, rfl⟩

/-- C5 witness: the four clauses evaluated on concrete lists: adding absent
`"bob"`, adding present `"alice"`, removing present `"alice"`, removing
absent `"carol"`. -/
theorem add_remove_player_spec_witness :
    (("bob" ∉ (["alice"] : List String)) ∧
      (add_player ["alice"] "bob" false).1 = true ∧
      (add_player ["alice"] "bob" false).2.1 = ["alice"] ++ ["bob"]) ∧
    (("alice" : String) ≠ "" ∧ "alice" ∈ (["alice", "bob"] : List String) ∧
      (add_player ["alice", "bob"] "alice" false).1 = false) ∧
    ((remove_player ["alice", "bob"] "alice" false).1 = true) ∧
    (("carol" ∉ (["alice"] : List String)) ∧
      remove_player ["alice"] "carol" false = (false, ["alice"], [])) := by
  have h1 := (add_remove_player_spec ["alice"] "bob" false).1 (by decide)
  have h2 := (add_remove_player_spec ["alice", "bob"] "alice" false).2.1
    (by decide) (by decide)
  have h3 := ((add_remove_player_spec ["alice", "bob"] "alice" false).2.2.1
    (by decide)).1
  have h4 := (add_remove_player_spec ["alice"] "carol" false).2.2.2 (by decide)
  exact ⟨⟨by decide, h1.1, h1.2.1⟩, ⟨by decide, by decide, h2.1⟩, h3,
    ⟨by decide, h4⟩⟩

theorem add_player_result (players : List String) (name : String) (online : Bool) :
    (add_player players name online).2.1 = players ∨
    (add_player players name online).2.1 = players ++ [name] := by
  unfold add_player
  by_cases h : lookupFalsy players name <;> simp [h]

theorem remove_player_sublist (players : List String) (name : String) (online : Bool) :
    ((remove_player players name online).2.1).Sublist players := by
  unfold remove_player
  cases h : find_index (fun el => el == name) players with
  | none => exact List.Sublist.refl players
  | some i => simpa using List.eraseIdx_sublist players i

theorem add_player_nodup {players : List String} {name : String} (online : Bool)
    (h : players.Nodup) (hne : name ≠ "") :
    ((add_player players name online).2.1).Nodup := by
  by_cases hmem : name ∈ players
  · rw [add_player_of_mem online hne hmem]
    exact h
  · rw [add_player_of_not_mem online hmem]
    simpa [List.nodup_append, h] using hmem

theorem applyOp_nodup {players : List String} {op : PlayerOp}
    (h : players.Nodup) (hne : op.name ≠ "") : (applyOp players op).Nodup := by
  cases op with
  | add n o => exact add_player_nodup o h hne
  | remove n o => exact (remove_player_sublist players n o).nodup h

/-- C6 counterexample: the single-element list `[""]` has no duplicate, yet
the one-call sequence `add_player("")` yields `["", ""]` — a duplicate — so
the player list is not duplicate-free under every sequence of registry
calls. -/
theorem applyOps_breaks_nodup :
    (([""] : List String)).Nodup ∧
    ¬ (applyOps [""] [PlayerOp.add "" false]).Nodup := by
  constructor <;> decide

/-- C6 (amended): starting from a duplicate-free player list, every sequence
of `add_player` / `remove_player` calls whose names are non-empty strings
preserves duplicate-freedom (an already-present empty-string name would be
appended again, see the counterexample); moreover neither operation reorders
the entries it does not touch: `add_player` either leaves the list unchanged
or appends at the tail, and `remove_player` yields a sublist (the remaining
entries in their original relative order). -/
theorem player_list_invariant (players : List String) (ops : List PlayerOp)
    (h : players.Nodup) (hops : ∀ op ∈ ops, PlayerOp.name op ≠ "") :
    (applyOps players ops).Nodup ∧
    (∀ (ps : List String) (n : String) (o : Bool),
      ((add_player ps n o).2.1 = ps ∨ (add_player ps n o).2.1 = ps ++ [n]) ∧
      ((remove_player ps n o).2.1).Sublist ps) := by
  refine ⟨?_, fun ps n o => ⟨add_player_result ps n o, remove_player_sublist ps n o⟩⟩
  induction ops generalizing players with
  | nil => exact h
  | cons op ops ih =>
      exact ih (applyOp players op) (applyOp_nodup h (hops op (by simp)))
        (fun op' hop' => hops op' (List.mem_cons_of_mem _ hop'))

/-- C6 witness: the invariant evaluated on a concrete run: starting from
`["alice"]`, adding `"bob"`, removing `"alice"`, and re-adding `"bob"`
leaves a duplicate-free list. -/
theorem player_list_invariant_witness :
    ((["alice"] : List String)).Nodup ∧
    (∀ op ∈ [PlayerOp.add "bob" false, PlayerOp.remove "alice" false,
      PlayerOp.add "bob" true], PlayerOp.name op ≠ "") ∧
    (applyOps ["alice"] [PlayerOp.add "bob" false, PlayerOp.remove "alice" false,
      PlayerOp.add "bob" true]).Nodup :=
  ⟨by decide, by decide,
    (player_list_invariant ["alice"]
      [PlayerOp.add "bob" false, PlayerOp.remove "alice" false,
        PlayerOp.add "bob" true] (by decide) (by decide)).1⟩

/-! ### Constructor validation and the async startup sequence (C4, C9) -/

/-- The optional `options` object of the constructor. -/
structure Options where
  supports : Option (List String) := none
  channels : Option (List String) := none
  user_agent : Option String := none
  players : Option (List String) := none
  deriving DecidableEq, Repr

/-- The fields the constructor assigns on `this`. -/
structure GrapevineState where
  client_id : String
  client_secret : String
  supports : List String
  players : List String
  channels : List String
  user_agent : String
  event_listeners : Listeners
  deriving DecidableEq, Repr

/-- The validity test of lines 23-24:
`typeof v == 'string' && v.length != 0`. -/
def validCred : JVal → Bool
  | .str s => s.length != 0
  | _ => false

/-- The string payload of a credential (only meaningful once valid). -/
def JVal.asString : JVal → String
  | .str s => s
  | _ => ""

/-- The async immediately-invoked startup sequence of the constructor
(lines 33-71), as the trace of actions it performs: connect, emit
`connected`, install the `'json'` handler, send `authenticate`, await the
`authenticate` acknowledgement via `wait`; only if that wait resolves
(`authOk = true`) does the sequence continue: install the heartbeat handler
and emit `authenticated`.  A rejected wait throws inside the async function
and nothing after the `await` runs. -/
def startupActions (authOk : Bool) : List Action :=
  [Action.connectSocket, Action.emit "connected", Action.installJsonHandler,
    Action.send "authenticate", Action.awaitEvent "authenticate"] ++
  (if authOk then [Action.installHeartbeatHandler, Action.emit "authenticated"] else [])

/-- The constructor (lines 20-72).  It validates `client_id` then
`client_secret` synchronously — throwing a `TypeError` before the async
startup sequence is even scheduled — and otherwise assigns the fields
(applying the `||` defaults) and runs the startup sequence.  The result
pairs the actions performed with either the thrown error or the constructed
state; `pkgVersion` stands for the ambient `PACKAGE_VERSION` constant and
`authOk` for the outcome of the awaited `authenticate` acknowledgement. -/
def grapevineCtor (client_id client_secret : JVal) (options : Option Options)
    (pkgVersion : String) (authOk : Bool) :
    List Action × Except JsError GrapevineState :=
  let opts := options.getD {}
  if validCred client_id = false then ([], .error .typeError)
  else if validCred client_secret = false then ([], .error .typeError)
  else
    (startupActions authOk,
      .ok { client_id := client_id.asString
            client_secret := client_secret.asString
            supports := opts.supports.getD []
            players := opts.players.getD []
            channels := opts.channels.getD []
            user_agent := opts.user_agent.getD ("NodeGrapevine " ++ pkgVersion)
            event_listeners := [] })

/-- C4: if `client_id` or `client_secret` is missing, not a string, or an
empty string, the constructor fails immediately and synchronously with a
`TypeError`: the action trace is empty, so no socket is opened and no
message is ever sent for that construction. -/
theorem ctor_invalid_cred_throws (client_id client_secret : JVal)
    (options : Option Options) (pkgVersion : String) (authOk : Bool)
    (h : validCred client_id = false ∨ validCred client_secret = false) :
    grapevineCtor client_id client_secret options pkgVersion authOk =
      ([], .error .typeError) := by
  cases h with
  | inl h => simp [grapevineCtor, h]
  | inr h =>
      by_cases h1 : validCred client_id = false <;> simp [grapevineCtor, h1, h]

/-- C4 witness: a missing (`undefined`) `client_id` and an empty-string
`client_secret` each throw with no action performed. -/
theorem ctor_invalid_cred_throws_witness :
    (validCred JVal.undef = false ∨ validCred (JVal.str "sec") = false) ∧
    grapevineCtor JVal.undef (JVal.str "sec") none "1.0.0" true =
      ([], .error .typeError) ∧
    grapevineCtor (JVal.str "id") (JVal.str "") none "1.0.0" true =
      ([], .error .typeError) :=
  ⟨Or.inl (by decide),
    ctor_invalid_cred_throws JVal.undef (JVal.str "sec") none "1.0.0" true
      (Or.inl (by decide)),
    ctor_invalid_cred_throws (JVal.str "id") (JVal.str "") none "1.0.0" true
      (Or.inr (by decide))⟩

/-- C9: on a run where the authenticate wait resolves, the startup sequence
emits `connected` exactly once and `authenticated` exactly once, with
`connected` strictly before `authenticated`; on a run where the wait is
rejected, `connected` is still emitted exactly once and `authenticated` is
never emitted. -/
theorem startup_emit_order :
    (startupActions true).count (Action.emit "connected") = 1 ∧
    (startupActions true).count (Action.emit "authenticated") = 1 ∧
    (startupActions true).indexOf (Action.emit "connected") <
      (startupActions true).indexOf (Action.emit "authenticated") ∧
    (startupActions false).count (Action.emit "connected") = 1 ∧
    Action.emit "authenticated" ∉ startupActions false := by
  refine ⟨by decide, by decide, by decide, by decide, by decide⟩

/-! ### Status queries (C8) -/

/-- One outbound status request (`socket.send` argument): event name,
correlation token, and the optional `payload.game` field. -/
structure StatusMsg where
  event : String
  ref : Option Nat
  payload_game : Option String
  deriving DecidableEq, Repr

/-- `get_status(game)` (lines 117-132): if `game` is a string with positive
length, send one `games/status` request with a fresh `uuid()` token and
`payload.game = game`; otherwise send one `players/status` request with a
fresh token and no payload.  The method touches no listener state and its
JS return value is `undefined` — it never awaits or returns the eventual
status response.  Result: (messages sent, listeners after the call, return
value); `fresh` stands for the `uuid()` token generated during the call. -/
def get_status (st : Listeners) (game : JVal) (fresh : Nat) :
    List StatusMsg × Listeners × JVal :=
  match game with
  | .str s =>
      if s.length > 0 then ([⟨"games/status", some fresh, some s⟩], st, .undef)
      else ([⟨"players/status", some fresh, none⟩], st, .undef)
  | _ => ([⟨"players/status", some fresh, none⟩], st, .undef)

/-- C8: with a non-empty string argument, `get_status` sends exactly one
`games/status` request whose `payload.game` is that string and whose `ref`
is the freshly generated token; with any other argument it sends exactly one
`players/status` request with a fresh token and no payload; in both cases
the listener map is untouched (no waiter is registered, so the call cannot
deliver the eventual response) and the call returns `undefined`, not the
response. -/
theorem get_status_spec (st : Listeners) (game : JVal) (fresh : Nat) :
    (∀ s : String, game = JVal.str s → s.length ≠ 0 →
      get_status st game fresh =
        ([⟨"games/status", some fresh, some s⟩], st, JVal.undef)) ∧
    ((∀ s : String, game = JVal.str s → s = "") →
      get_status st game fresh =
        ([⟨"players/status", some fresh, none⟩], st, JVal.undef)) := by
  constructor
  · rintro s rfl hs
    simp [get_status, Nat.pos_of_ne_zero hs]
  · intro h
    cases game with
    | str s =>
        have : s = "" := h s rfl
        subst this
        simp [get_status]
    | num n => rfl
    | jsBool b => rfl
    | undef => rfl
    | nul => rfl

/-- C8 witness: `get_status("ExampleGame")` sends one `games/status` request
carrying the game name and the fresh token 42; `get_status(undefined)` sends
one `players/status` request with the fresh token and no payload. -/
theorem get_status_spec_witness :
    get_status [] (JVal.str "ExampleGame") 42 =
      ([⟨"games/status", some 42, some "ExampleGame"⟩], [], JVal.undef) ∧
    get_status [] JVal.undef 42 =
      ([⟨"players/status", some 42, none⟩], [], JVal.undef) :=
  ⟨(get_status_spec [] (JVal.str "ExampleGame") 42).1 "ExampleGame" rfl (by decide),
    (get_status_spec [] JVal.undef 42).2 (fun s h => JVal.noConfusion h)⟩

/-! ### Tell dispatch (C7) -/

/-- JS `String.prototype.split` with a single-character separator, over the
string's character list: `"".split(c)` is `[[]]`, never the empty list. -/
def splitOnChar (c : Char) : List Char → List (List Char)
  | [] => [[]]
  | x :: xs =>
    let r := splitOnChar c xs
    if x = c then [] :: r
    else (x :: r.headD []) :: r.tail

theorem splitOnChar_ne_nil (c : Char) (l : List Char) : splitOnChar c l ≠ [] := by
  cases l with
  | nil => simp [splitOnChar]
  | cons x xs =>
      by_cases hx : x = c <;> simp [splitOnChar, hx]

theorem splitOnChar_headD (c : Char) (l : List Char) :
    (splitOnChar c l).headD [] = l.takeWhile (fun a => a != c) := by
  induction l with
  | nil => rfl
  | cons x xs ih =>
      by_cases hx : x = c
      · simp [splitOnChar, hx, List.takeWhile_cons]
      · simpa [splitOnChar, hx, List.takeWhile_cons] using ih

theorem splitOnChar_of_not_mem {c : Char} {l : List Char} (h : c ∉ l) :
    splitOnChar c l = [l] := by
  induction l with
  | nil => rfl
  | cons x xs ih =>
      have hx : ¬ x = c := fun hq => h (hq ▸ List.mem_cons_self x xs)
      have hxs : c ∉ xs := fun hq => h (List.mem_cons_of_mem _ hq)
      simp [splitOnChar, hx, ih hxs]

theorem splitOnChar_of_mem {c : Char} {l : List Char} (h : c ∈ l) :
    splitOnChar c l =
      l.takeWhile (fun a => a != c) ::
        splitOnChar c ((l.dropWhile (fun a => a != c)).tail) := by
  induction l with
  | nil => cases h
  | cons x xs ih =>
      by_cases hx : x = c
      · subst hx
        simp [splitOnChar, List.takeWhile_cons, List.dropWhile_cons]
      · have hxs : c ∈ xs := by
          cases h with
          | head => exact absurd rfl hx
          | tail _ h => exact h
        simp [splitOnChar, hx, List.takeWhile_cons, List.dropWhile_cons, ih hxs]

/-- One outbound `tells/send` request (`socket.send` argument). -/
structure TellMsg where
  event : String
  ref : Nat
  from_name : List Char
  to_game : List Char
  to_name : List Char
  sent_at : List Char
  message : List Char
  deriving DecidableEq, Repr

/-- `send_tell(message, from, target, game_name)` (lines 177-201), the
request-construction part: split `target` on `'@'`; `game` starts as
`game_name` and is overridden by `spl[1]` when the split has a second
component; the destination name is `spl[0]`.  `fresh` stands for the
`uuid()` token and `now` for `new Date().toISOString()`. -/
def send_tell (message from_name target game_name : List Char) (fresh : Nat)
    (now : List Char) : TellMsg :=
  let spl := splitOnChar '@' target
  let game := spl.getD 1 game_name
  ⟨"tells/send", fresh, from_name, game, spl.headD [], now, message⟩

/-- C7: if `target` contains an `'@'`, the split component after the first
`'@'` overrides `game_name` as `to_game` and the component before it is
`to_name`; if `target` contains no `'@'`, `to_game` is `game_name` and
`to_name` is the whole `target`. -/
theorem send_tell_routing (message from_name target game_name : List Char)
    (fresh : Nat) (now : List Char) :
    ('@' ∈ target →
      (send_tell message from_name target game_name fresh now).to_game =
        ((target.dropWhile (fun a => a != '@')).tail.takeWhile (fun a => a != '@')) ∧
      (send_tell message from_name target game_name fresh now).to_name =
        target.takeWhile (fun a => a != '@')) ∧
    ('@' ∉ target →
      (send_tell message from_name target game_name fresh now).to_game = game_name ∧
      (send_tell message from_name target game_name fresh now).to_name = target) := by
  constructor
  · intro h
    obtain ⟨b, t, ht⟩ : ∃ b t,
        splitOnChar '@' ((target.dropWhile (fun a => a != '@')).tail) = b :: t := by
      cases hh : splitOnChar '@' ((target.dropWhile (fun a => a != '@')).tail) with
      | nil => exact absurd hh (splitOnChar_ne_nil _ _)
      | cons b t => exact ⟨b, t, rfl⟩
    have hb : b = ((target.dropWhile (fun a => a != '@')).tail.takeWhile
        (fun a => a != '@')) := by
      have hh := splitOnChar_headD '@' ((target.dropWhile (fun a => a != '@')).tail)
      rw [ht] at hh
      simpa using hh
    constructor
    · show (splitOnChar '@' target).getD 1 game_name = _
      rw [splitOnChar_of_mem h, ht]
      simpa using hb
    · show (splitOnChar '@' target).headD [] = _
      exact splitOnChar_headD '@' target
  · intro h
    constructor
    · show (splitOnChar '@' target).getD 1 game_name = game_name
      rw [splitOnChar_of_not_mem h]
      rfl
    · show (splitOnChar '@' target).headD [] = target
      rw [splitOnChar_of_not_mem h]
      rfl

/-- C7 witness: `target = "bob@othergame"` routes with game `"othergame"`
(overriding the default `"herogame"`) and name `"bob"`; `target = "bob"`
with default `"herogame"` routes with game `"herogame"` and name `"bob"`. -/
theorem send_tell_routing_witness :
    ('@' ∈ "bob@othergame".toList ∧
      (send_tell "hi".toList "ann".toList "bob@othergame".toList "herogame".toList
        5 [] ).to_game = "othergame".toList ∧
      (send_tell "hi".toList "ann".toList "bob@othergame".toList "herogame".toList
        5 [] ).to_name = "bob".toList) ∧
    ('@' ∉ "bob".toList ∧
      (send_tell "hi".toList "ann".toList "bob".toList "herogame".toList
        5 [] ).to_game = "herogame".toList ∧
      (send_tell "hi".toList "ann".toList "bob".toList "herogame".toList
        5 [] ).to_name = "bob".toList) := by
  have h1 := (send_tell_routing "hi".toList "ann".toList "bob@othergame".toList
    "herogame".toList 5 []).1 (by decide)
  have h2 := (send_tell_routing "hi".toList "ann".toList "bob".toList
    "herogame".toList 5 []).2 (by decide)
  refine ⟨⟨by decide, ?_, ?_⟩, ⟨by decide, h2.1, h2.2⟩⟩
  · rw [h1.1]; decide
  · rw [h1.2]; decide

end Grapevine
